import Mathlib

/-!
Verification of the rain BitTorrent client core: a shallow embedding of the
peer connection message loop (`peerConn.run`), the per-piece download driver
(`peerConn.downloadPiece`), the interest negotiation (`peerConn.beInterested`),
and the transfer supervisor's peer-address queue and progress accounting
(`transfer.Run`, `transfer.Downloaded`, `transfer.Left`).

Machine integers (Go `uint32`) are embedded as `Nat` with explicit reduction
modulo `2 ^ 32` at the one place the source relies on wraparound
(`length -= 8` in the PIECE handler).  The byte stream read from the TCP
connection is a `List Nat` of bytes; reads are deterministic: a read of `n`
bytes succeeds exactly when `n` bytes remain.
-/

namespace Rain

/-- Go constant `blockSize = 16 * 1024` from the peer connection file. -/
def blockSize : Nat := 16 * 1024

/-- `2 ^ 32`, the modulus of Go's `uint32` arithmetic. -/
def u32Mod : Nat := 2 ^ 32

/-- Wrapping `uint32` subtraction: for `a < 2 ^ 32` this is Go's `a - b`
on `uint32` values. -/
def u32sub (a b : Nat) : Nat := (a + u32Mod - b) % u32Mod

/-- Modelled from the spec: the `internal/bitfield` package (not in src/) is a
"packed bit vector with `Set(i)`, `Test(i)`, `Count()`, `Len()`, and raw byte
access for wire I/O".  `bytes` is the raw byte array (most significant bit
first, as on the BitTorrent wire), `count` is the bit length `Len()`. -/
structure BitField where
  bytes : List Nat
  count : Nat
deriving DecidableEq

/-- Modelled from the spec: `bitfield.New(nil, n)` — a fresh all-zero bitfield
of `n` bits backed by `ceil(n/8)` bytes. -/
def newBitField (n : Nat) : BitField :=
  ⟨List.replicate ((n + 7) / 8) 0, n⟩

/-- Modelled from the spec: `Test(i)` — bit `i` is the `(7 - i % 8)`-th bit of
byte `i / 8`. -/
def bfTest (b : BitField) (i : Nat) : Bool :=
  Nat.testBit (b.bytes.getD (i / 8) 0) (7 - i % 8)

/-- Modelled from the spec: `Set(i)` — set bit `i`. -/
def bfSet (b : BitField) (i : Nat) : BitField :=
  ⟨b.bytes.set (i / 8) (b.bytes.getD (i / 8) 0 ||| 2 ^ (7 - i % 8)), b.count⟩

/-- Modelled from the spec: `Count()` — the number of set bits. -/
def bfCount (b : BitField) : Nat :=
  (List.range b.count).countP (fun i => bfTest b i)

/-- A block of a piece: `index` within the piece and byte `length`
(fields of the `block` struct used by `peerConn.run` and `downloadPiece`). -/
structure Block where
  index : Nat
  length : Nat
deriving DecidableEq

/-- The fields of the `piece` struct that the peer connection code uses:
index, byte length, SHA-1 digest (20 bytes), ordered blocks, the
`downloaded` flag and the block-received bitfield (modelled as a bool list,
`piece.bitField.Set(i)` becomes `List.set i true`). -/
structure Piece where
  index : Nat
  length : Nat
  sha1 : List Nat
  blocks : List Block
  downloaded : Bool
  blockBits : List Bool
deriving DecidableEq

/-- The torrent descriptor fields used by `Downloaded`/`Left`:
`Info.PieceLength` and `Info.TotalLength`. -/
structure TorrentInfo where
  pieceLength : Int
  totalLength : Int
deriving DecidableEq

/-- The fields of the `transfer` struct the embedded code uses: the pieces,
our bitfield and the torrent info. -/
structure Transfer where
  pieces : List Piece
  bitField : BitField
  info : TorrentInfo
deriving DecidableEq

/-- `transfer.Downloaded() = int64(t.bitField.Count() * t.torrent.Info.PieceLength)`. -/
def Downloaded (t : Transfer) : Int := (bfCount t.bitField : Int) * t.info.pieceLength

/-- `transfer.Left() = t.torrent.Info.TotalLength - t.Downloaded()`. -/
def Left (t : Transfer) : Int := t.info.totalLength - Downloaded t

/-! ## Wire reading

`binary.Read` on a `uint32` consumes four bytes, big endian; on a byte it
consumes one byte.  Bytes on the wire are `< 256`; the readers reduce each
byte modulo 256 so the decoded `uint32` is always `< 2 ^ 32`. -/

/-- Read a big-endian `uint32` from the stream. -/
def readU32 (s : List Nat) : Option (Nat × List Nat) :=
  match s with
  | b0 :: b1 :: b2 :: b3 :: rest =>
      some ((((b0 % 256) * 256 + b1 % 256) * 256 + b2 % 256) * 256 + b3 % 256, rest)
  | _ => none

/-- Read one byte from the stream. -/
def readByte (s : List Nat) : Option (Nat × List Nat) :=
  match s with
  | b :: rest => some (b % 256, rest)
  | _ => none

/-- Read exactly `n` bytes from the stream. -/
def readBytes (n : Nat) (s : List Nat) : Option (List Nat × List Nat) :=
  if n ≤ s.length then some (s.take n, s.drop n) else none

/-- Big-endian encoding of a `uint32` as four bytes. -/
def u32be (n : Nat) : List Nat :=
  [n / 2 ^ 24 % 256, n / 2 ^ 16 % 256, n / 2 ^ 8 % 256, n % 256]

/-! ## The message loop of `peerConn.run`

One iteration of the loop reads a 4-byte length prefix and, unless the frame
is a keep-alive, a message id byte, then dispatches.  Observable effects are
the events sent on the transfer's channels (`t.haveC <- peerHave{...}` and
`piece.blockC <- peerBlock{...}`), the mutation of the connection-local state,
and the position in the byte stream at which the next iteration resumes. -/

/-- An event emitted by the message loop: a `peerHave` for a piece index, or a
`peerBlock` carrying the data bytes for (piece index, block index). -/
inductive Event where
  | haveEv (pieceIdx : Nat)
  | blockEv (pieceIdx blockIdx : Nat) (data : List Nat)
deriving DecidableEq

/-- The connection-local state mutated by the loop: the `first` flag, the
choke/interest flags, the peer's view bitfield (`bitField` local of `run`),
and a generation counter standing for the identity of the current
`unchokeC` channel (bumped each time `unchokeC` is closed and remade). -/
structure RunState where
  first : Bool
  peerChoking : Bool
  peerInterested : Bool
  view : BitField
  gen : Nat
deriving DecidableEq

/-- Outcome of one loop iteration: the loop returns (connection terminates)
with a logged error, or continues with updated state, the remaining stream,
and the events emitted during the iteration. -/
inductive StepOut where
  | err (e : String)
  | next (s : RunState) (rest : List Nat) (evs : List Event)
deriving DecidableEq

/-- Whether the iteration terminated the connection. -/
def StepOut.isErr : StepOut → Bool
  | .err _ => true
  | .next _ _ _ => false

/-- `peerHave` events for every set bit of a received bitfield
(the `for i ... if bitField.Test(i)` loop of the `msgBitfield` case). -/
def bitfieldEvents (v : BitField) : List Event :=
  (List.range v.count).filterMap (fun i => if bfTest v i then some (.haveEv i) else none)

/-- The `msgHave` case: read the index, validate it against the piece count,
set the bit in the local view and emit `peerHave`. -/
def stepHave (t : Transfer) (s : RunState) (s2 : List Nat) : StepOut :=
  match readU32 s2 with
  | none => .err "read error"
  | some (i, s3) =>
      if t.pieces.length ≤ i then .err "unexpected piece index"
      else .next { s with view := bfSet s.view i, first := false } s3 [.haveEv i]

/-- The `msgBitfield` case: only legal as the first message; the body length
(frame length minus 1) must equal the view's byte length; the body overwrites
the view and a `peerHave` is emitted per set bit. -/
def stepBitfield (s : RunState) (len : Nat) (s2 : List Nat) : StepOut :=
  if s.first = false then .err "bitfield can only be sent after handshake"
  else if len ≠ s.view.bytes.length then .err "invalid bitfield length"
  else
    match readBytes s.view.bytes.length s2 with
    | none => .err "read error"
    | some (bs, s3) =>
        let v' : BitField := ⟨bs, s.view.count⟩
        .next { s with view := v', first := false } s3 (bitfieldEvents v')

/-- The `msgPiece` case is embedded in stages mirroring the sequential reads
and early returns of the Go `case msgPiece:` body.  Final stage: with the
remaining length already computed as `length -= 8` in `uint32` arithmetic,
validate it against the block's declared length, then read exactly that many
bytes and emit them as a `peerBlock`. -/
def pieceData (s : RunState) (len' index blockIndex : Nat) (block : Block)
    (s4 : List Nat) : StepOut :=
  if len' ≠ block.length then .err "unexpected block size"
  else
    match readBytes len' s4 with
    | none => .err "read error"
    | some (data, s5) => .next { s with first := false } s5 [.blockEv index blockIndex data]

/-- Stage after `begin` was read: validate begin % blockSize == 0 and the
derived block index, fetch the block and compute `length -= 8` (wrapping). -/
def pieceOffset (s : RunState) (len index : Nat) (piece : Piece) (begin : Nat)
    (s4 : List Nat) : StepOut :=
  if begin % blockSize ≠ 0 then .err "unexpected piece offset"
  else if piece.blocks.length ≤ begin / blockSize then .err "unexpected piece offset"
  else pieceData s (u32sub len 8) index (begin / blockSize)
    (piece.blocks.getD (begin / blockSize) ⟨0, 0⟩) s4

/-- Stage after the index was validated and the piece fetched: read `begin`. -/
def pieceBegin (t : Transfer) (s : RunState) (len index : Nat) (piece : Piece)
    (s3 : List Nat) : StepOut :=
  match readU32 s3 with
  | none => .err "read error"
  | some (begin, s4) => pieceOffset s len index piece begin s4

/-- Entry of the `msgPiece` case: read the index and validate it against the
piece count. -/
def stepPiece (t : Transfer) (s : RunState) (len : Nat) (s2 : List Nat) : StepOut :=
  match readU32 s2 with
  | none => .err "read error"
  | some (index, s3) =>
      if t.pieces.length ≤ index then .err "unexpected piece index"
      else pieceBegin t s len index (t.pieces.getD index ⟨0, 0, [], [], false, []⟩) s3

/-- Dispatch on the message id, mirroring the `switch msgType` of
`peerConn.run`.  `len` is the frame length minus 1 (after `length--`).
The `msgRequest`, `msgCancel` and `msgPort` cases are empty in the source:
they consume nothing beyond the id byte.  The default case discards the
remaining `len` bytes (`io.CopyN(ioutil.Discard, ...)`, error ignored). -/
def stepMsg (t : Transfer) (s : RunState) (msgType len : Nat) (s2 : List Nat) : StepOut :=
  if msgType = 0 then .next { s with peerChoking := true, first := false } s2 []
  else if msgType = 1 then
    .next { s with peerChoking := false, gen := s.gen + 1, first := false } s2 []
  else if msgType = 2 then .next { s with peerInterested := true, first := false } s2 []
  else if msgType = 3 then .next { s with peerInterested := false, first := false } s2 []
  else if msgType = 4 then stepHave t s s2
  else if msgType = 5 then stepBitfield s len s2
  else if msgType = 6 then .next { s with first := false } s2 []
  else if msgType = 7 then stepPiece t s len s2
  else if msgType = 8 then .next { s with first := false } s2 []
  else if msgType = 9 then .next { s with first := false } s2 []
  else .next { s with first := false } (s2.drop len) []

/-- One iteration of the message loop: read the 4-byte length prefix; a zero
length is a keep-alive that `continue`s without touching any state (in
particular without clearing `first`); otherwise read the id byte, decrement
the length and dispatch. -/
def step (t : Transfer) (s : RunState) (stream : List Nat) : StepOut :=
  match readU32 stream with
  | none => .err "read error"
  | some (len0, s1) =>
      if len0 = 0 then .next s s1 []
      else
        match readByte s1 with
        | none => .err "read error"
        | some (msgType, s2) => stepMsg t s msgType (len0 - 1) s2

/-- The message loop iterated up to `fuel` times: returns the final
connection-local state, all events emitted in order, and the terminating
error if the loop exited. -/
def run (t : Transfer) : Nat → RunState → List Nat → RunState × List Event × Option String
  | 0, s, _ => (s, [], none)
  | fuel + 1, s, stream =>
      match step t s stream with
      | .err e => (s, [], some e)
      | .next s' rest evs =>
          let r := run t fuel s' rest
          (r.1, evs ++ r.2.1, r.2.2)

/-- The initial connection-local state on entering `run`: `first = true`,
`peerChoking = true`, `peerInterested = false` (from `newPeerConn`), the view
bitfield freshly allocated with the transfer's bit length. -/
def initRunState (t : Transfer) : RunState :=
  ⟨true, true, false, newBitField t.bitField.count, 0⟩

/-! ## `peerConn.beInterested`

The connection state relevant to interest negotiation: the `peerChoking`
flag, whether the `onceInterested` guard has fired, and the generation of the
current `unchokeC` channel.  `beInterested` reads `unchokeC` first, returns
it unchanged if `peerChoking` is already false, and otherwise sends
INTERESTED through the once-guard.  The UNCHOKE message handler flips
`peerChoking` and swaps the channel (generation + 1). -/

/-- The `peerConn` fields used by `beInterested`. -/
structure PCState where
  peerChoking : Bool
  onceDone : Bool
  gen : Nat
deriving DecidableEq

/-- `newPeerConn`: `peerChoking = true`, the once-guard untriggered, the
initial `unchokeC` channel. -/
def initPC : PCState := ⟨true, false, 0⟩

/-- `peerConn.beInterested`: returns (new state, returned channel generation,
whether an INTERESTED message was sent by this call). -/
def beInterested (s : PCState) : PCState × Nat × Bool :=
  if s.peerChoking = false then (s, s.gen, false)
  else if s.onceDone then (s, s.gen, false)
  else ({ s with onceDone := true }, s.gen, true)

/-- Operations that touch the interest/choke state of a connection: a
`beInterested` call, an incoming CHOKE, an incoming UNCHOKE. -/
inductive POp where
  | call
  | chokeMsg
  | unchokeMsg
deriving DecidableEq

/-- Apply one operation; the `Nat` is the number of INTERESTED messages sent
by that operation (0 or 1). -/
def applyOp (s : PCState) : POp → PCState × Nat
  | .call => let r := beInterested s; (r.1, if r.2.2 then 1 else 0)
  | .chokeMsg => ({ s with peerChoking := true }, 0)
  | .unchokeMsg => ({ s with peerChoking := false, gen := s.gen + 1 }, 0)

/-- Fold a sequence of operations, accumulating the total number of
INTERESTED messages sent. -/
def runOps (s : PCState) : List POp → PCState × Nat
  | [] => (s, 0)
  | op :: ops =>
      let r := applyOp s op
      let r' := runOps r.1 ops
      (r'.1, r.2 + r'.2)

/-! ## `peerConn.downloadPiece`

The driver is deterministic given the behaviour of its environment: whether
the unchoke signal fires within the minute, and, per block-loop iteration,
whether a block arrives on `piece.blockC` within the minute and with which
bytes.  The SHA-1 function (`crypto/sha1`, external to the repository) is a
parameter. -/

/-- The environment of one `downloadPiece` call. -/
structure DPEnv where
  unchokeFires : Bool
  blockAt : Nat → Option (List Nat)

/-- Go's `copy(buf[off:], src)`: copy `min (buf.length - off) src.length`
bytes of `src` into `buf` starting at `off`. -/
def writeAt (buf : List Nat) (off : Nat) (src : List Nat) : List Nat :=
  let n := min (buf.length - off) src.length
  buf.take off ++ src.take n ++ buf.drop (off + n)

/-- Result of the block loop: the assembled piece buffer, the piece's
block-received bits, and the error if the loop returned early. -/
structure BlocksOut where
  buf : List Nat
  bits : List Bool
  err : Option String
deriving DecidableEq

/-- The `for i, b := range piece.blocks` loop of `downloadPiece`: request the
block (sends are modelled as succeeding), wait for it; on timeout log and
continue; on receipt fail with "unexpected block length" unless the data
length equals the block's declared length, else copy the data into the buffer
at `b.index * blockSize`, write it to the files, and set bit `i` of the
piece's block bitfield. -/
def dpBlocks (env : DPEnv) : List Block → Nat → List Nat → List Bool → BlocksOut
  | [], _, buf, bits => ⟨buf, bits, none⟩
  | b :: rest, i, buf, bits =>
      match env.blockAt i with
      | none => dpBlocks env rest (i + 1) buf bits
      | some data =>
          if data.length ≠ b.length then ⟨buf, bits, some "unexpected block length"⟩
          else dpBlocks env rest (i + 1) (writeAt buf (b.index * blockSize) data) (bits.set i true)

/-- Result of a `downloadPiece` call: the piece after the call, the returned
error (`none` is success), and whether the call closed the connection. -/
structure DPOut where
  piece : Piece
  err : Option String
  connClosed : Bool
deriving DecidableEq

/-- `peerConn.downloadPiece`: wait for unchoke (1-minute deadline; on timeout
close the connection and fail with "Peer did not unchoke"); run the block
loop over a zeroed piece-length buffer; then compare the SHA-1 of the buffer
against the stored digest — mismatch fails with "received corrupt piece",
match sets `piece.downloaded = true` and returns success. -/
def downloadPiece (sha1 : List Nat → List Nat) (p : Piece) (env : DPEnv) : DPOut :=
  if env.unchokeFires then
    let r := dpBlocks env p.blocks 0 (List.replicate p.length 0) p.blockBits
    match r.err with
    | some e => ⟨{ p with blockBits := r.bits }, some e, false⟩
    | none =>
        if sha1 r.buf ≠ p.sha1 then
          ⟨{ p with blockBits := r.bits }, some "received corrupt piece", false⟩
        else
          ⟨{ p with blockBits := r.bits, downloaded := true }, none, false⟩
  else ⟨p, some "Peer did not unchoke", true⟩

/-! ## The supervisor's peer-address queue (`transfer.Run`)

The queue is a Go channel of capacity `tracker.NumWant`; the enqueue is
`select { case peers <- pa: default: <-peers; peers <- pa }`: append when
there is room, otherwise pop the oldest waiting address and append. -/

/-- Modelled from the spec: `tracker.NumWant = 50` (the `tracker` package is
not in src/); the peer-address channel capacity. -/
def NumWant : Nat := 50

/-- The supervisor's enqueue of one tracker-announced address. -/
def enqueuePeer (q : List α) (pa : α) : List α :=
  if q.length < NumWant then q ++ [pa] else q.drop 1 ++ [pa]

/-! ## Helper lemmas -/

/-- Decoding a big-endian encoded `uint32` returns the value and the rest of
the stream. -/
theorem readU32_u32be (n : Nat) (h : n < u32Mod) (rest : List Nat) :
    readU32 (u32be n ++ rest) = some (n, rest) := by
  norm_num [u32Mod] at h
  simp only [u32be, List.cons_append, List.nil_append, readU32, Option.some.injEq,
    Prod.mk.injEq]
  refine ⟨?_, by simp⟩
  omega

/-- A non-empty frame: the loop reads the length prefix and the id byte, then
dispatches on the id. -/
theorem step_frame (t : Transfer) (s : RunState) (L m : Nat) (tail : List Nat)
    (hL0 : L ≠ 0) (hL : L < u32Mod) (hm : m < 256) :
    step t s (u32be L ++ m :: tail) = stepMsg t s m (L - 1) tail := by
  simp only [step, readU32_u32be L hL (m :: tail), hL0, if_false, readByte,
    Nat.mod_eq_of_lt hm]

/-- Reading the piece index of a PIECE body. -/
theorem stepPiece_u32be (t : Transfer) (s : RunState) (len idx : Nat) (rest : List Nat)
    (hidx : idx < u32Mod) :
    stepPiece t s len (u32be idx ++ rest) =
      if t.pieces.length ≤ idx then .err "unexpected piece index"
      else pieceBegin t s len idx (t.pieces.getD idx ⟨0, 0, [], [], false, []⟩) rest := by
  unfold stepPiece
  rw [readU32_u32be idx hidx]

/-- Reading the `begin` field of a PIECE body. -/
theorem pieceBegin_u32be (t : Transfer) (s : RunState) (len index : Nat) (piece : Piece)
    (begin : Nat) (rest : List Nat) (hb : begin < u32Mod) :
    pieceBegin t s len index piece (u32be begin ++ rest) =
      pieceOffset s len index piece begin rest := by
  unfold pieceBegin
  rw [readU32_u32be begin hb]

/-- A read of `n` bytes from a stream holding at least `n` bytes. -/
theorem readBytes_of_le (n : Nat) (s : List Nat) (h : n ≤ s.length) :
    readBytes n s = some (s.take n, s.drop n) := by
  unfold readBytes
  rw [if_pos h]

/-- The total INTERESTED count of an operation sequence is bounded by 1, and
by 0 once the once-guard has fired. -/
theorem runOps_le (ops : List POp) : ∀ s : PCState,
    (runOps s ops).2 ≤ if s.onceDone then 0 else 1 := by
  induction ops with
  | nil => intro s; simp [runOps]
  | cons op ops ih =>
      intro s
      match op with
      | .call =>
          simp only [runOps, applyOp, beInterested]
          by_cases hc : s.peerChoking = false
          · simpa [hc] using ih s
          · by_cases ho : s.onceDone
            · simpa [hc, ho] using ih s
            · have := ih { s with onceDone := true }
              simp only [ho] at *
              simpa [hc] using this
      | .chokeMsg =>
          simpa [runOps, applyOp] using ih { s with peerChoking := true }
      | .unchokeMsg =>
          simpa [runOps, applyOp] using ih { s with peerChoking := false, gen := s.gen + 1 }

/-- Dispatch of message id 5 reaches the BITFIELD handler. -/
theorem stepMsg_bitfield (t : Transfer) (s : RunState) (len : Nat) (s2 : List Nat) :
    stepMsg t s 5 len s2 = stepBitfield s len s2 := rfl

/-- Dispatch of message id 7 reaches the PIECE handler. -/
theorem stepMsg_piece (t : Transfer) (s : RunState) (len : Nat) (s2 : List Nat) :
    stepMsg t s 7 len s2 = stepPiece t s len s2 := rfl

/-! ## The claims -/

/-- C1: a `downloadPiece` call on a piece with `downloaded = false` returns
success or sets `downloaded` exactly when the unchoke fired, the block loop
returned no error, and the SHA-1 of the assembled buffer equals the stored
digest; and whenever the hash comparison is reached and fails, the call
returns "received corrupt piece" and `downloaded` stays false. -/
theorem C1_downloadPiece_sha1_gate (sha1 : List Nat → List Nat) (p : Piece) (env : DPEnv)
    (hp : p.downloaded = false) :
    (((downloadPiece sha1 p env).err = none ∨
        (downloadPiece sha1 p env).piece.downloaded = true) ↔
      (env.unchokeFires = true ∧
       (dpBlocks env p.blocks 0 (List.replicate p.length 0) p.blockBits).err = none ∧
       sha1 (dpBlocks env p.blocks 0 (List.replicate p.length 0) p.blockBits).buf = p.sha1)) ∧
    (env.unchokeFires = true →
     (dpBlocks env p.blocks 0 (List.replicate p.length 0) p.blockBits).err = none →
     sha1 (dpBlocks env p.blocks 0 (List.replicate p.length 0) p.blockBits).buf ≠ p.sha1 →
     (downloadPiece sha1 p env).err = some "received corrupt piece" ∧
     (downloadPiece sha1 p env).piece.downloaded = false) := by
  unfold downloadPiece
  by_cases hu : env.unchokeFires
  · simp only [hu, if_true]
    cases herr : (dpBlocks env p.blocks 0 (List.replicate p.length 0) p.blockBits).err with
    | some e => simp [herr, hp]
    | none =>
        by_cases hh : sha1 (dpBlocks env p.blocks 0 (List.replicate p.length 0) p.blockBits).buf
            = p.sha1
        · simp [herr, hh]
        · simp [herr, hh, hp]
  · simp [hu, hp]

/-- Witness for C1 at a concrete input: a piece with no blocks whose digest
matches the hash of the zeroed buffer downloads successfully. -/
theorem C1_witness :
    (downloadPiece (fun _ => [1]) ⟨0, 1, [1], [], false, []⟩ ⟨true, fun _ => none⟩).err = none ∨
    (downloadPiece (fun _ => [1]) ⟨0, 1, [1], [], false, []⟩
        ⟨true, fun _ => none⟩).piece.downloaded = true :=
  (C1_downloadPiece_sha1_gate (fun _ => [1]) ⟨0, 1, [1], [], false, []⟩ ⟨true, fun _ => none⟩
      rfl).1.mpr ⟨rfl, rfl, rfl⟩

/-- C5 counterexample: when the unchoke deadline fires, the error string the
code returns is "Peer did not unchoke" (capital P), not the claimed
"peer did not unchoke". -/
theorem C5_counterexample :
    (downloadPiece (fun _ => []) ⟨0, 0, [], [], false, []⟩ ⟨false, fun _ => none⟩).err =
      some "Peer did not unchoke" ∧
    ¬ (downloadPiece (fun _ => []) ⟨0, 0, [], [], false, []⟩ ⟨false, fun _ => none⟩).err =
      some "peer did not unchoke" :=
  ⟨rfl, by decide⟩

/-- C5 (amended): if the unchoke signal does not fire within the minute,
`downloadPiece` closes the connection and returns the error
"Peer did not unchoke", leaving the piece unchanged. -/
theorem C5_amended_unchoke_timeout (sha1 : List Nat → List Nat) (p : Piece) (env : DPEnv)
    (h : env.unchokeFires = false) :
    downloadPiece sha1 p env = ⟨p, some "Peer did not unchoke", true⟩ := by
  simp [downloadPiece, h]

/-- Witness for the amended C5 at a concrete input. -/
theorem C5_witness :
    downloadPiece (fun _ => []) ⟨0, 0, [], [], false, []⟩ ⟨false, fun _ => none⟩ =
      ⟨⟨0, 0, [], [], false, []⟩, some "Peer did not unchoke", true⟩ :=
  C5_amended_unchoke_timeout (fun _ => []) ⟨0, 0, [], [], false, []⟩ ⟨false, fun _ => none⟩ rfl

/-- C6: over any sequence of `beInterested` calls and incoming CHOKE/UNCHOKE
messages starting from a fresh connection, at most one INTERESTED message is
ever sent; and a `beInterested` call made while `peerChoking` is false
returns the current unchoke channel without sending or changing anything. -/
theorem C6_interested_at_most_once :
    (∀ ops : List POp, (runOps initPC ops).2 ≤ 1) ∧
    (∀ s : PCState, s.peerChoking = false → beInterested s = (s, s.gen, false)) := by
  constructor
  · intro ops
    simpa [initPC] using runOps_le ops initPC
  · intro s h
    simp [beInterested, h]

/-- Witness for C6 at concrete inputs: a call, an unchoke, two more calls
around a choke still send at most one INTERESTED; a call in the unchoked
state is a pure read. -/
theorem C6_witness :
    (runOps initPC [POp.call, POp.unchokeMsg, POp.call, POp.chokeMsg, POp.call]).2 ≤ 1 ∧
    beInterested ⟨false, false, 3⟩ = (⟨false, false, 3⟩, 3, false) :=
  ⟨C6_interested_at_most_once.1 [POp.call, POp.unchokeMsg, POp.call, POp.chokeMsg, POp.call],
   C6_interested_at_most_once.2 ⟨false, false, 3⟩ rfl⟩

/-- C7: the supervisor's enqueue keeps the queue length at most `NumWant`:
with free space the address is appended; on a full queue exactly the oldest
waiting address is removed before appending, leaving the length unchanged. -/
theorem C7_enqueue_bounded {α : Type} (q : List α) (pa : α) (h : q.length ≤ NumWant) :
    (enqueuePeer q pa).length ≤ NumWant ∧
    (q.length < NumWant → enqueuePeer q pa = q ++ [pa]) ∧
    (q.length = NumWant → enqueuePeer q pa = q.drop 1 ++ [pa] ∧
      (enqueuePeer q pa).length = q.length) := by
  by_cases hlt : q.length < NumWant
  · rw [enqueuePeer, if_pos hlt]
    refine ⟨?_, fun _ => rfl, fun heq => absurd hlt (by omega)⟩
    simp only [List.length_append, List.length_cons, List.length_nil]
    omega
  · have heq : q.length = 50 := (le_antisymm h (not_lt.mp hlt)).trans rfl
    rw [enqueuePeer, if_neg hlt]
    have hlen : (q.drop 1 ++ [pa]).length = q.length := by
      simp only [List.length_append, List.length_drop, List.length_cons, List.length_nil]
      omega
    refine ⟨?_, fun hc => absurd hc hlt, fun _ => ⟨rfl, hlen⟩⟩
    rw [hlen]
    exact h

/-- Witness for C7 at a concrete input: enqueueing into a full queue of 50
addresses keeps the length at 50. -/
theorem C7_witness :
    (enqueuePeer (List.replicate 50 (0 : Nat)) 7).length ≤ NumWant :=
  (C7_enqueue_bounded (List.replicate 50 (0 : Nat)) 7 (by simp [NumWant])).1

/-- C10: `Downloaded` is the set-bit count of the transfer's bitfield times
the piece length; hence with all bits set and a short final piece it exceeds
the total length and `Left` is negative. -/
theorem C10_downloaded_overcount (t : Transfer) :
    Downloaded t = (bfCount t.bitField : Int) * t.info.pieceLength ∧
    (∀ lastLen : Int,
      bfCount t.bitField = t.bitField.count →
      1 ≤ t.bitField.count →
      0 < lastLen → lastLen < t.info.pieceLength →
      t.info.totalLength = ((t.bitField.count : Int) - 1) * t.info.pieceLength + lastLen →
      t.info.totalLength < Downloaded t ∧ Left t < 0) := by
  refine ⟨rfl, ?_⟩
  intro lastLen hcount hn hpos hlt htot
  have hD : Downloaded t = (t.bitField.count : Int) * t.info.pieceLength := by
    simp [Downloaded, hcount]
  have key : t.info.totalLength < Downloaded t := by
    rw [htot, hD]
    nlinarith [hlt]
  exact ⟨key, by simp only [Left]; linarith⟩

/-- C4: a BITFIELD frame after any earlier non-keep-alive message terminates
the connection with "bitfield can only be sent after handshake"; as the first
message it is rejected unless its body length equals `ceil(pieceCount/8)`,
and when accepted it overwrites the local view and emits a `peerHave` per set
bit. -/
theorem C4_bitfield_only_first (t : Transfer) (s : RunState) (L : Nat) (tail : List Nat)
    (hL0 : L ≠ 0) (hL : L < u32Mod) :
    (s.first = false →
      step t s (u32be L ++ 5 :: tail) = .err "bitfield can only be sent after handshake") ∧
    (s.first = true → s.view = newBitField t.pieces.length →
      L - 1 ≠ (t.pieces.length + 7) / 8 →
      step t s (u32be L ++ 5 :: tail) = .err "invalid bitfield length") ∧
    (s.first = true → s.view = newBitField t.pieces.length →
      L - 1 = (t.pieces.length + 7) / 8 → (t.pieces.length + 7) / 8 ≤ tail.length →
      step t s (u32be L ++ 5 :: tail) =
        .next { s with
            view := ⟨tail.take ((t.pieces.length + 7) / 8), t.pieces.length⟩,
            first := false }
          (tail.drop ((t.pieces.length + 7) / 8))
          (bitfieldEvents ⟨tail.take ((t.pieces.length + 7) / 8), t.pieces.length⟩)) := by
  have hstep : step t s (u32be L ++ 5 :: tail) = stepBitfield s (L - 1) tail := by
    rw [step_frame t s L 5 tail hL0 hL (by norm_num), stepMsg_bitfield]
  have hbytes : ∀ n : Nat, (newBitField n).bytes.length = (n + 7) / 8 := by
    intro n; simp [newBitField]
  refine ⟨fun hf => ?_, fun hf hview hne => ?_, fun hf hview heq hle => ?_⟩
  · rw [hstep]
    simp [stepBitfield, hf]
  · have hlen : s.view.bytes.length = (t.pieces.length + 7) / 8 := by
      rw [hview]; exact hbytes t.pieces.length
    rw [hstep]
    unfold stepBitfield
    rw [if_neg (by simp [hf]), if_pos (by rw [hlen]; exact hne)]
  · have hlen : s.view.bytes.length = (t.pieces.length + 7) / 8 := by
      rw [hview]; exact hbytes t.pieces.length
    have hcnt : s.view.count = t.pieces.length := by rw [hview]; rfl
    rw [hstep]
    unfold stepBitfield
    rw [if_neg (by simp [hf]), if_neg (by rw [hlen]; exact not_not_intro heq), hlen, hcnt,
      readBytes_of_le ((t.pieces.length + 7) / 8) tail hle]

/-- Witness for C4 at a concrete input: on a one-piece transfer a BITFIELD
frame of body `[0x80]` as the first message is accepted, overwrites the view
and emits `peerHave 0`. -/
theorem C4_witness :
    step ⟨[⟨0, 16384, [1], [⟨0, 16384⟩], false, [false]⟩], ⟨[0], 1⟩, ⟨16384, 16384⟩⟩
        ⟨true, true, false, ⟨[0], 1⟩, 0⟩ (u32be 2 ++ 5 :: [128]) =
      .next ⟨false, true, false, ⟨[128], 1⟩, 0⟩ [] [.haveEv 0] :=
  (C4_bitfield_only_first ⟨[⟨0, 16384, [1], [⟨0, 16384⟩], false, [false]⟩], ⟨[0], 1⟩,
      ⟨16384, 16384⟩⟩ ⟨true, true, false, ⟨[0], 1⟩, 0⟩ 2 [128] (by decide)
      (by decide)).2.2 rfl rfl (by decide) (by decide)

/-- C3: an incoming PIECE frame terminates the connection unless the index is
within the piece count, `begin` is a multiple of `blockSize`,
`begin / blockSize` is a valid block index, and the remaining length (frame
length minus 9, in `uint32` arithmetic) equals that block's declared length;
when all checks pass, exactly the body bytes are delivered as a `peerBlock`
for that piece and block. -/
theorem C3_piece_validation (t : Transfer) (s : RunState) (L idx begin_ : Nat)
    (tail : List Nat) (piece : Piece) (blk : Block)
    (hL0 : L ≠ 0) (hL : L < u32Mod) (hidx : idx < u32Mod) (hbegin : begin_ < u32Mod)
    (hpiece : t.pieces.getD idx ⟨0, 0, [], [], false, []⟩ = piece)
    (hblk : piece.blocks.getD (begin_ / blockSize) ⟨0, 0⟩ = blk) :
    (¬ (idx < t.pieces.length ∧ begin_ % blockSize = 0 ∧
        begin_ / blockSize < piece.blocks.length ∧ u32sub (L - 1) 8 = blk.length) →
      (step t s (u32be L ++ 7 :: (u32be idx ++ (u32be begin_ ++ tail)))).isErr = true) ∧
    (idx < t.pieces.length → begin_ % blockSize = 0 →
     begin_ / blockSize < piece.blocks.length → u32sub (L - 1) 8 = blk.length →
     blk.length ≤ tail.length →
     step t s (u32be L ++ 7 :: (u32be idx ++ (u32be begin_ ++ tail))) =
       .next { s with first := false } (tail.drop blk.length)
         [.blockEv idx (begin_ / blockSize) (tail.take blk.length)]) := by
  have hstep : step t s (u32be L ++ 7 :: (u32be idx ++ (u32be begin_ ++ tail))) =
      stepPiece t s (L - 1) (u32be idx ++ (u32be begin_ ++ tail)) := by
    rw [step_frame t s L 7 (u32be idx ++ (u32be begin_ ++ tail)) hL0 hL (by norm_num),
      stepMsg_piece]
  constructor
  · intro hneg
    rw [hstep, stepPiece_u32be t s (L - 1) idx (u32be begin_ ++ tail) hidx]
    by_cases hc1 : t.pieces.length ≤ idx
    · rw [if_pos hc1]
      rfl
    · rw [if_neg hc1, hpiece, pieceBegin_u32be t s (L - 1) idx piece begin_ tail hbegin]
      unfold pieceOffset
      by_cases hc2 : begin_ % blockSize = 0
      · rw [if_neg (not_not_intro hc2)]
        by_cases hc3 : piece.blocks.length ≤ begin_ / blockSize
        · rw [if_pos hc3]
          rfl
        · rw [if_neg hc3, hblk]
          by_cases hc4 : u32sub (L - 1) 8 = blk.length
          · exact absurd ⟨not_le.mp hc1, hc2, not_le.mp hc3, hc4⟩ hneg
          · unfold pieceData
            rw [if_pos hc4]
            rfl
      · rw [if_pos hc2]
        rfl
  · intro hc1 hc2 hc3 hc4 hle
    rw [hstep, stepPiece_u32be t s (L - 1) idx (u32be begin_ ++ tail) hidx,
      if_neg (not_le.mpr hc1), hpiece,
      pieceBegin_u32be t s (L - 1) idx piece begin_ tail hbegin]
    unfold pieceOffset
    rw [if_neg (not_not_intro hc2), if_neg (not_le.mpr hc3), hblk]
    unfold pieceData
    rw [if_neg (not_not_intro hc4), hc4, readBytes_of_le blk.length tail hle]

/-- Witness for C3 at a concrete input: a well-formed PIECE frame for a
2-byte block delivers exactly its two body bytes. -/
theorem C3_witness :
    step ⟨[⟨0, 2, [1], [⟨0, 2⟩], false, [false]⟩], ⟨[0], 1⟩, ⟨2, 2⟩⟩
        ⟨true, true, false, ⟨[0], 1⟩, 0⟩
        (u32be 11 ++ 7 :: (u32be 0 ++ (u32be 0 ++ [9, 8]))) =
      .next ⟨false, true, false, ⟨[0], 1⟩, 0⟩ [] [.blockEv 0 0 [9, 8]] :=
  (C3_piece_validation ⟨[⟨0, 2, [1], [⟨0, 2⟩], false, [false]⟩], ⟨[0], 1⟩, ⟨2, 2⟩⟩
      ⟨true, true, false, ⟨[0], 1⟩, 0⟩ 11 0 0 [9, 8] ⟨0, 2, [1], [⟨0, 2⟩], false, [false]⟩
      ⟨0, 2⟩ (by decide) (by decide) (by decide) (by decide) rfl rfl).2
    (by decide) (by decide) (by decide) (by decide) (by decide)

/-- C9: a PIECE frame whose declared length is between 1 and 8 passes the
index and offset checks but the `uint32` computation `length - 9` wraps to at
least `2^32 - 8`, which cannot equal a block length bounded by `blockSize`,
so the connection terminates with "unexpected block size" before any data is
read. -/
theorem C9_short_frame_wraps (t : Transfer) (s : RunState) (L idx begin_ : Nat)
    (tail : List Nat) (piece : Piece) (blk : Block)
    (hL1 : 1 ≤ L) (hL8 : L ≤ 8) (hidx : idx < u32Mod) (hbegin : begin_ < u32Mod)
    (hpiece : t.pieces.getD idx ⟨0, 0, [], [], false, []⟩ = piece)
    (hblk : piece.blocks.getD (begin_ / blockSize) ⟨0, 0⟩ = blk)
    (hc1 : idx < t.pieces.length) (hc2 : begin_ % blockSize = 0)
    (hc3 : begin_ / blockSize < piece.blocks.length)
    (hblen : blk.length ≤ blockSize) :
    u32Mod - 8 ≤ u32sub (L - 1) 8 ∧
    step t s (u32be L ++ 7 :: (u32be idx ++ (u32be begin_ ++ tail))) =
      .err "unexpected block size" := by
  have hwrap : u32Mod - 8 ≤ u32sub (L - 1) 8 := by
    simp only [u32sub, u32Mod]
    norm_num
    omega
  refine ⟨hwrap, ?_⟩
  have hstep : step t s (u32be L ++ 7 :: (u32be idx ++ (u32be begin_ ++ tail))) =
      stepPiece t s (L - 1) (u32be idx ++ (u32be begin_ ++ tail)) := by
    rw [step_frame t s L 7 (u32be idx ++ (u32be begin_ ++ tail)) (by omega)
      (by simp only [u32Mod]; norm_num; omega) (by norm_num), stepMsg_piece]
  have hc4 : u32sub (L - 1) 8 ≠ blk.length := by
    have : blockSize < u32Mod - 8 := by simp only [blockSize, u32Mod]; norm_num
    omega
  rw [hstep, stepPiece_u32be t s (L - 1) idx (u32be begin_ ++ tail) hidx,
    if_neg (not_le.mpr hc1), hpiece,
    pieceBegin_u32be t s (L - 1) idx piece begin_ tail hbegin]
  unfold pieceOffset
  rw [if_neg (not_not_intro hc2), if_neg (not_le.mpr hc3), hblk]
  unfold pieceData
  rw [if_pos hc4]

/-- Witness for C9 at a concrete input: a PIECE frame with declared length 5
on a transfer whose piece 0 has one 2-byte block. -/
theorem C9_witness :
    u32Mod - 8 ≤ u32sub (5 - 1) 8 ∧
    step ⟨[⟨0, 2, [1], [⟨0, 2⟩], false, [false]⟩], ⟨[0], 1⟩, ⟨2, 2⟩⟩
        ⟨true, true, false, ⟨[0], 1⟩, 0⟩
        (u32be 5 ++ 7 :: (u32be 0 ++ (u32be 0 ++ []))) =
      .err "unexpected block size" :=
  C9_short_frame_wraps ⟨[⟨0, 2, [1], [⟨0, 2⟩], false, [false]⟩], ⟨[0], 1⟩, ⟨2, 2⟩⟩
    ⟨true, true, false, ⟨[0], 1⟩, 0⟩ 5 0 0 [] ⟨0, 2, [1], [⟨0, 2⟩], false, [false]⟩ ⟨0, 2⟩
    (by decide) (by decide) (by decide) (by decide) rfl rfl (by decide) (by decide)
    (by decide) (by decide)

/-- C8: a zero-length frame (keep-alive) changes no connection state — in
particular it leaves the `first` flag untouched, so a BITFIELD preceded only
by keep-alives is still accepted as the first message (shown concretely on a
one-piece transfer). -/
theorem C8_keepalive_preserves_first (t : Transfer) (s : RunState) (tail : List Nat) :
    step t s (0 :: 0 :: 0 :: 0 :: tail) = .next s tail [] ∧
    run ⟨[⟨0, 16384, [1], [⟨0, 16384⟩], false, [false]⟩], ⟨[0], 1⟩, ⟨16384, 16384⟩⟩ 2
        (initRunState ⟨[⟨0, 16384, [1], [⟨0, 16384⟩], false, [false]⟩], ⟨[0], 1⟩,
          ⟨16384, 16384⟩⟩)
        ([0, 0, 0, 0] ++ [0, 0, 0, 2, 5, 128]) =
      (⟨false, true, false, ⟨[128], 1⟩, 0⟩, [.haveEv 0], none) := by
  refine ⟨?_, by decide⟩
  simp [step, readU32]

/-- C2: evaluating the message loop at a REQUEST frame followed by an
INTERESTED frame.  The loop resumes at the byte right after the REQUEST's id
byte — the 12-byte body is not consumed — so the stream is desynchronized
and the subsequent INTERESTED message is never applied (the final state still
has `peerInterested = false` and the loop dies on a framing error). -/
theorem C2_request_body_not_consumed :
    step ⟨[⟨0, 16384, [1], [⟨0, 16384⟩], false, [false]⟩], ⟨[0], 1⟩, ⟨16384, 16384⟩⟩
        ⟨true, true, false, ⟨[0], 1⟩, 0⟩
        ([0, 0, 0, 13, 6] ++ ([0, 0, 0, 0, 0, 0, 0, 0, 0, 0, 64, 0] ++ [0, 0, 0, 1, 2])) =
      .next ⟨false, true, false, ⟨[0], 1⟩, 0⟩
        ([0, 0, 0, 0, 0, 0, 0, 0, 0, 0, 64, 0] ++ [0, 0, 0, 1, 2]) [] ∧
    ([0, 0, 0, 0, 0, 0, 0, 0, 0, 0, 64, 0] ++ [0, 0, 0, 1, 2] : List Nat) ≠ [0, 0, 0, 1, 2] ∧
    run ⟨[⟨0, 16384, [1], [⟨0, 16384⟩], false, [false]⟩], ⟨[0], 1⟩, ⟨16384, 16384⟩⟩ 6
        ⟨true, true, false, ⟨[0], 1⟩, 0⟩
        ([0, 0, 0, 13, 6] ++ ([0, 0, 0, 0, 0, 0, 0, 0, 0, 0, 64, 0] ++ [0, 0, 0, 1, 2])) =
      (⟨false, true, false, ⟨[0], 1⟩, 0⟩, [], some "read error") :=
  ⟨rfl, by decide, rfl⟩

/-- Witness for C10 at a concrete input: two pieces of piece length 16384,
total length 16484 (final piece 100 bytes), bitfield fully set. -/
theorem C10_witness :
    (⟨[], ⟨[192], 2⟩, ⟨16384, 16484⟩⟩ : Transfer).info.totalLength <
      Downloaded ⟨[], ⟨[192], 2⟩, ⟨16384, 16484⟩⟩ ∧
    Left ⟨[], ⟨[192], 2⟩, ⟨16384, 16484⟩⟩ < 0 :=
  (C10_downloaded_overcount ⟨[], ⟨[192], 2⟩, ⟨16384, 16484⟩⟩).2 100 (by decide) (by decide)
    (by decide) (by decide) (by decide)

end Rain
